import Mathlib

/-!
# koalab API: sign-in, the authentication gate and the board / postit handlers

A shallow embedding of `src/api/koalab.go`.  Every handler of the Go file is a Lean
function of the same name that takes the response writer, the request and the state of the
outside world (the MongoDB collections and the log of calls made to the Persona verifier)
and returns the writer and the world afterwards.

The Go file leans on four libraries.  The parts of them the handlers exercise are
modelled below, each next to the call that uses it:

* `encoding/json`: `Unmarshal` into a struct (member selection by name, first exactly then
  under case folding; unexported fields are invisible; a type mismatch is remembered and
  reported at the end; an `Unmarshaler` that fails stops decoding) and `Marshal`; a string
  literal spelled with an escape is told apart from one spelled without, because an
  `Unmarshaler` reads the raw token;
* `labix.org/v2/mgo/bson`: `ObjectId` is a Go string of raw bytes, its JSON form is the
  hexadecimal spelling, and marshalling one that is not 12 bytes long fails;
* `labix.org/v2/mgo`: a collection is a list of documents, a query matches a document when
  every queried field holds an equal value of the same BSON kind (a string is its bytes),
  `_id` is unique;
* `net/http`: the response writer, `http.Error`, `http.NotFound`, `http.SetCookie`,
  `Request.Cookie`; the path parameter is a Go string, that is any sequence of bytes.

What the outside world decides (the identifier `bson.NewObjectId` returns, whether the store
round trip fails, what the verifier answers, the cookie codec built from the secret) is an
input of type `Env`.
-/

namespace Koalab

/-! ## Go strings, bytes and hexadecimal -/

/-- One byte of a Go string. -/
abbrev Byte := Fin 256

/-- UTF-8 encoding of one code point. -/
def utf8EncodeCode (n : Nat) : List Byte :=
  if n < 0x80 then [Fin.ofNat n]
  else if n < 0x800 then [Fin.ofNat (0xC0 + n / 64), Fin.ofNat (0x80 + n % 64)]
  else if n < 0x10000 then
    [Fin.ofNat (0xE0 + n / 4096), Fin.ofNat (0x80 + n / 64 % 64), Fin.ofNat (0x80 + n % 64)]
  else
    [Fin.ofNat (0xF0 + n / 262144), Fin.ofNat (0x80 + n / 4096 % 64),
     Fin.ofNat (0x80 + n / 64 % 64), Fin.ofNat (0x80 + n % 64)]

/-- The bytes of a Go string holding the text `s`. -/
def goBytes (s : String) : List Byte :=
  (s.data.map (fun c => utf8EncodeCode c.toNat)).flatten

/-- Whether a byte is a UTF-8 continuation byte. -/
def isCont (b : Nat) : Bool := 0x80 ≤ b && b ≤ 0xBF

/-- Go `utf8.DecodeRune` on the values of the bytes: the first code point and the number
of bytes it takes; a byte that starts no valid sequence is read as U+FFFD of width 1. -/
def decodeRune (bs : List Nat) : Nat × Nat :=
  match bs with
  | [] => (0xFFFD, 0)
  | b0 :: rest =>
    if b0 < 0x80 then (b0, 1)
    else
      match rest with
      | [] => (0xFFFD, 1)
      | b1 :: rest1 =>
        if 0xC2 ≤ b0 ∧ b0 ≤ 0xDF ∧ isCont b1 then ((b0 - 0xC0) * 64 + (b1 - 0x80), 2)
        else
          match rest1 with
          | [] => (0xFFFD, 1)
          | b2 :: rest2 =>
            if 0xE0 ≤ b0 ∧ b0 ≤ 0xEF ∧ isCont b1 ∧ isCont b2 ∧
                (b0 = 0xE0 → 0xA0 ≤ b1) ∧ (b0 = 0xED → b1 ≤ 0x9F) then
              ((b0 - 0xE0) * 4096 + (b1 - 0x80) * 64 + (b2 - 0x80), 3)
            else
              match rest2 with
              | [] => (0xFFFD, 1)
              | b3 :: _ =>
                if 0xF0 ≤ b0 ∧ b0 ≤ 0xF4 ∧ isCont b1 ∧ isCont b2 ∧ isCont b3 ∧
                    (b0 = 0xF0 → 0x90 ≤ b1) ∧ (b0 = 0xF4 → b1 ≤ 0x8F) then
                  ((b0 - 0xF0) * 262144 + (b1 - 0x80) * 4096 + (b2 - 0x80) * 64 +
                    (b3 - 0x80), 4)
                else (0xFFFD, 1)

/-- The loop of `decodeRune` over a byte string; every step takes at least one byte, so
as many steps as there are bytes reach the end. -/
def utf8DecodeLoop : Nat → List Nat → List Nat
  | 0, _ => []
  | _, [] => []
  | steps + 1, b :: bs =>
    (decodeRune (b :: bs)).1 :: utf8DecodeLoop steps ((b :: bs).drop (decodeRune (b :: bs)).2)

/-- The code points a byte string spells, each invalid byte read as U+FFFD (what
`json.Marshal` writes for it). -/
def utf8DecodeCodes (bs : List Nat) : List Nat :=
  utf8DecodeLoop bs.length bs

/-- The text a Go string of these bytes holds, as `json.Marshal` renders it. -/
def goText (bs : List Byte) : String :=
  String.mk ((utf8DecodeCodes (bs.map (fun b => b.val))).map Char.ofNat)

/-- Value of one hexadecimal digit given by its code, as `encoding/hex` reads it
(both letter cases). -/
def hexNibble (c : Nat) : Option Nat :=
  if 48 ≤ c ∧ c ≤ 57 then some (c - 48)
  else if 97 ≤ c ∧ c ≤ 102 then some (c - 87)
  else if 65 ≤ c ∧ c ≤ 70 then some (c - 55)
  else none

/-- Go `hex.Decode`: two digits a byte; an odd length or a non-digit fails. -/
def hexDecode : List Nat → Option (List Byte)
  | [] => some []
  | [_] => none
  | hi :: lo :: rest =>
    match hexNibble hi, hexNibble lo, hexDecode rest with
    | some h, some l, some tl => some (Fin.ofNat (16 * h + l) :: tl)
    | _, _, _ => none

/-- Lower-case hexadecimal digit of a value below 16. -/
def hexDigit (n : Nat) : Char :=
  Char.ofNat (if n < 10 then 48 + n else 87 + n)

/-- Go `fmt.Sprintf("%x", s)` on a byte string: two lower-case digits a byte. -/
def hexEncode (bs : List Byte) : String :=
  String.mk ((bs.map (fun b => [hexDigit (b.val / 16), hexDigit (b.val % 16)])).flatten)

/-- Representative of a code point under Unicode simple case folding, exact on the orbits
of the ASCII letters (`K` also folds with the Kelvin sign, `S` with the long s). -/
def foldCode (c : Nat) : Nat :=
  if 65 ≤ c ∧ c ≤ 90 then c + 32
  else if c = 0x17F then 115
  else if c = 0x212A then 107
  else c

/-- Go `strings.EqualFold` with an ASCII first argument (the field names of this program). -/
def equalFold (name key : String) : Bool :=
  name.data.map (fun c => foldCode c.toNat) == key.data.map (fun c => foldCode c.toNat)

/-! ## JSON values -/

/-- A JSON text after scanning.  `num` is a number literal written as an integer,
`real` any other number literal (kept as written).  A string is given by its content; on
input `str` is a literal spelled without a backslash escape (its token is the content
between two quotes) and `strEsc` a literal spelled with at least one escape.  The output
of `json.Marshal` is given by content, as `str`. -/
inductive JSON where
  | null
  | bool (b : Bool)
  | num (n : Int)
  | real (lit : String)
  | str (s : String)
  | strEsc (s : String)
  | arr (items : List JSON)
  | obj (members : List (String × JSON))

/-- Name `encoding/json` uses for the kind of a value in its type errors. -/
def JSON.kind : JSON → String
  | .null => "null"
  | .bool _ => "bool"
  | .num _ => "number"
  | .real _ => "number"
  | .str _ => "string"
  | .strEsc _ => "string"
  | .arr _ => "array"
  | .obj _ => "object"

/-- A byte string as the JSON scanner reads it: the value it spells, or the syntax error
`json.Unmarshal` reports before it stores anything. -/
abbrev Bytes := Except String JSON

/-- What storing one object member into a Go value does. -/
inductive FieldResult (α : Type) where
  /-- The member was consumed (or skipped); the value afterwards. -/
  | store (a : α)
  /-- A type mismatch: `saveError` keeps the first one and decoding carries on. -/
  | mismatch (msg : String)
  /-- An `Unmarshaler` returned an error: decoding stops. -/
  | abort (msg : String)

/-- The loop of `decodeState.object` over the members of a JSON object, in order.
`saved` is the decoder's `savedError`. -/
def decodeObject {α : Type} (setField : String → JSON → α → FieldResult α) :
    List (String × JSON) → α → Option String → Except String (α × Option String)
  | [], a, saved => .ok (a, saved)
  | (k, v) :: rest, a, saved =>
    match setField k v a with
    | .store a1 => decodeObject setField rest a1 saved
    | .mismatch msg =>
      decodeObject setField rest a (match saved with | some e => some e | none => some msg)
    | .abort msg => .error msg

/-- What `decodeState.value` does with a JSON value whose target is a struct:
`null` leaves it alone, an object is decoded member by member, anything else is a
type mismatch. -/
def decodeStruct {α : Type} (setField : String → JSON → α → FieldResult α) (goType : String)
    (v : JSON) (a : α) (saved : Option String) : Except String (α × Option String) :=
  match v with
  | .null => .ok (a, saved)
  | .obj members => decodeObject setField members a saved
  | other =>
    .ok (a, match saved with
      | some e => some e
      | none => some ("json: cannot unmarshal " ++ other.kind ++ " into Go value of type " ++ goType))

/-- Go `json.Unmarshal(data, &x)` for a struct `x`: a syntax error is reported before
anything is stored; otherwise the value is decoded and the saved error, if any, returned. -/
def jsonUnmarshal {α : Type} (setField : String → JSON → α → FieldResult α) (goType : String)
    (data : Bytes) (x : α) : Except String α :=
  match data with
  | .error e => .error e
  | .ok v =>
    match decodeStruct setField goType v x none with
    | .error e => .error e
    | .ok (_, some e) => .error e
    | .ok (a, none) => .ok a

/-- Store a JSON value into a Go `string`. -/
def setString (v : JSON) (old : String) : FieldResult String :=
  match v with
  | .str s => .store s
  | .strEsc s => .store s
  | .null => .store old
  | other => .mismatch ("json: cannot unmarshal " ++ other.kind ++ " into Go value of type string")

/-- Store a JSON value into a Go `int` / `int64` (64 bits): the literal goes through
`strconv.ParseInt`, so a fraction, an exponent or an overflow is a type mismatch. -/
def setInt (v : JSON) (old : Int) : FieldResult Int :=
  match v with
  | .num n =>
    if -(2 ^ 63) ≤ n ∧ n < 2 ^ 63 then .store n
    else .mismatch "json: cannot unmarshal number into Go value of type int"
  | .null => .store old
  | other => .mismatch ("json: cannot unmarshal " ++ other.kind ++ " into Go value of type int")

/-- Select the struct field a member key names, as the decoder does: the field whose JSON
name equals the key, else the first whose name equals it under case folding. -/
def fieldIndex (names : List String) (key : String) : Option Nat :=
  match names.findIdx? (fun f => f == key) with
  | some i => some i
  | none => names.findIdx? (fun f => equalFold f key)

/-! ## bson.ObjectId -/

/-- Go `type ObjectId string`: a raw byte string (12 bytes when valid). -/
structure ObjectId where
  bytes : List Byte
deriving DecidableEq, Repr

/-- The conversion `bson.ObjectId(s)` of a Go string holding the text `s`: the same bytes,
no decoding. -/
def ObjectId.ofString (s : String) : ObjectId := ⟨goBytes s⟩

/-- Method `(id ObjectId) MarshalJSON`: the quoted hexadecimal spelling of the bytes. -/
def ObjectId.MarshalJSON (id : ObjectId) : JSON := .str (hexEncode id.bytes)

/-- Method `(id *ObjectId) UnmarshalJSON`, which reads the raw token: it must be 26 bytes
long, a quote, 24 hexadecimal digits and a quote.  For a literal without escape the token
is the content between quotes; a literal with an escape holds a backslash, so it is either
not 26 bytes long or not hexadecimal.  Everything else, `null` included, is the error
`Invalid ObjectId in JSON` too. -/
def ObjectId.UnmarshalJSON (v : JSON) : Except String ObjectId :=
  match v with
  | .str s =>
    if (goBytes s).length + 2 ≠ 26 then .error ("Invalid ObjectId in JSON: " ++ s)
    else
      match hexDecode (s.data.map Char.toNat) with
      | some bs => .ok ⟨bs⟩
      | none => .error ("Invalid ObjectId in JSON: " ++ s)
  | .strEsc s => .error ("Invalid ObjectId in JSON: " ++ s)
  | other => .error ("Invalid ObjectId in JSON: " ++ other.kind)

/-- Store a JSON value into an `ObjectId` field (it is an `Unmarshaler`). -/
def setObjectId (v : JSON) : FieldResult ObjectId :=
  match ObjectId.UnmarshalJSON v with
  | .ok id => .store id
  | .error e => .abort e

/-- Apply a function to the stored value of a field result. -/
def FieldResult.map {α β : Type} (f : α → β) : FieldResult α → FieldResult β
  | .store a => .store (f a)
  | .mismatch msg => .mismatch msg
  | .abort msg => .abort msg

/-- Store a JSON value into a field that is itself a struct. -/
def setStruct {α : Type} (setField : String → JSON → α → FieldResult α) (goType : String)
    (v : JSON) (old : α) : FieldResult α :=
  match decodeStruct setField goType v old none with
  | .error e => .abort e
  | .ok (a, none) => .store a
  | .ok (_, some e) => .mismatch e

/-! ## The data model of koalab.go -/

/-- Go `type BrowserIDResponse struct`. -/
structure BrowserIDResponse where
  Status : String
  Email : String
  Audience : String
  Issuer : String
  Expires : Int
deriving DecidableEq, Repr

/-- Go `type Board struct`, JSON and BSON names `_id`, `title`. -/
structure Board where
  Id : ObjectId
  Title : String
deriving DecidableEq, Repr

/-- The anonymous struct of the field `Coords` of a postit. -/
structure PostitCoords where
  X : Int
  Y : Int
deriving DecidableEq, Repr

/-- The anonymous struct of the field `Size` of a postit. -/
structure PostitSize where
  W : Int
  H : Int
deriving DecidableEq, Repr

/-- Go `type Postit struct`.  The field `angle` is unexported: neither `encoding/json` nor
`bson` reads or writes it. -/
structure Postit where
  Id : ObjectId
  BoardId : ObjectId
  Title : String
  Coords : PostitCoords
  Size : PostitSize
  angle : Int
  Color : String
deriving DecidableEq, Repr

/-- Method `(b BrowserIDResponse) Okay()`. -/
def BrowserIDResponse.Okay (b : BrowserIDResponse) : Bool :=
  b.Status == "okay"

/-- The zero value `var response BrowserIDResponse`. -/
def BrowserIDResponse.zero : BrowserIDResponse :=
  { Status := "", Email := "", Audience := "", Issuer := "", Expires := 0 }

/-- JSON names of the fields of `BrowserIDResponse` (no tags: the Go names). -/
def BrowserIDResponse.fieldNames : List String :=
  ["Status", "Email", "Audience", "Issuer", "Expires"]

/-- Store one member of the verifier's JSON object into a `BrowserIDResponse`. -/
def BrowserIDResponse.setField (key : String) (v : JSON) (b : BrowserIDResponse) :
    FieldResult BrowserIDResponse :=
  match fieldIndex BrowserIDResponse.fieldNames key with
  | some 0 => (setString v b.Status).map (fun x => { b with Status := x })
  | some 1 => (setString v b.Email).map (fun x => { b with Email := x })
  | some 2 => (setString v b.Audience).map (fun x => { b with Audience := x })
  | some 3 => (setString v b.Issuer).map (fun x => { b with Issuer := x })
  | some 4 => (setInt v b.Expires).map (fun x => { b with Expires := x })
  | _ => .store b

/-- JSON names of the fields of `Board`. -/
def Board.fieldNames : List String := ["_id", "title"]

/-- Store one member of a request body into a `Board`. -/
def Board.setField (key : String) (v : JSON) (b : Board) : FieldResult Board :=
  match fieldIndex Board.fieldNames key with
  | some 0 => (setObjectId v).map (fun x => { b with Id := x })
  | some 1 => (setString v b.Title).map (fun x => { b with Title := x })
  | _ => .store b

/-- Store one member into the `Coords` of a postit. -/
def PostitCoords.setField (key : String) (v : JSON) (c : PostitCoords) :
    FieldResult PostitCoords :=
  match fieldIndex ["x", "y"] key with
  | some 0 => (setInt v c.X).map (fun x => { c with X := x })
  | some 1 => (setInt v c.Y).map (fun x => { c with Y := x })
  | _ => .store c

/-- Store one member into the `Size` of a postit. -/
def PostitSize.setField (key : String) (v : JSON) (c : PostitSize) : FieldResult PostitSize :=
  match fieldIndex ["w", "h"] key with
  | some 0 => (setInt v c.W).map (fun x => { c with W := x })
  | some 1 => (setInt v c.H).map (fun x => { c with H := x })
  | _ => .store c

/-- JSON names of the exported fields of `Postit` (`angle` is not among them). -/
def Postit.fieldNames : List String :=
  ["_id", "board_id", "title", "coords", "size", "color"]

/-- Store one member of a request body into a `Postit`. -/
def Postit.setField (key : String) (v : JSON) (p : Postit) : FieldResult Postit :=
  match fieldIndex Postit.fieldNames key with
  | some 0 => (setObjectId v).map (fun x => { p with Id := x })
  | some 1 => (setObjectId v).map (fun x => { p with BoardId := x })
  | some 2 => (setString v p.Title).map (fun x => { p with Title := x })
  | some 3 =>
    (setStruct PostitCoords.setField "struct" v p.Coords).map (fun x => { p with Coords := x })
  | some 4 =>
    (setStruct PostitSize.setField "struct" v p.Size).map (fun x => { p with Size := x })
  | some 5 => (setString v p.Color).map (fun x => { p with Color := x })
  | _ => .store p

/-- Go `json.Marshal(board)`. -/
def Board.MarshalJSON (b : Board) : JSON :=
  .obj [("_id", b.Id.MarshalJSON), ("title", .str b.Title)]

/-- Go `json.Marshal(postit)`: the exported fields under their tags. -/
def Postit.MarshalJSON (p : Postit) : JSON :=
  .obj [("_id", p.Id.MarshalJSON), ("board_id", p.BoardId.MarshalJSON),
        ("title", .str p.Title),
        ("coords", .obj [("x", .num p.Coords.X), ("y", .num p.Coords.Y)]),
        ("size", .obj [("w", .num p.Size.W), ("h", .num p.Size.H)]),
        ("color", .str p.Color)]

/-- Go `json.Marshal` of a slice: `null` for the nil slice (what `All` leaves when nothing
matched), an array otherwise. -/
def marshalSlice {α : Type} (marshal : α → JSON) (xs : List α) : JSON :=
  match xs with
  | [] => .null
  | _ :: _ => .arr (xs.map marshal)

/-- Go `user["assertion"].(string)` on the map decoded from the request body: the last
member with that key wins, and it must be a JSON string. -/
def assertionOf (user : List (String × JSON)) : Option String :=
  match user.reverse.lookup "assertion" with
  | some (.str a) => some a
  | some (.strEsc a) => some a
  | _ => none

/-- Go `json.Unmarshal(body, &user)` for `user map[string]interface{}`: the members of the
object (`null` empties the map); a syntax error or a value of another kind is an error. -/
def unmarshalMap (data : Bytes) : Except String (List (String × JSON)) :=
  match data with
  | .error e => .error e
  | .ok .null => .ok []
  | .ok (.obj members) => .ok members
  | .ok other =>
    .error ("json: cannot unmarshal " ++ other.kind ++
      " into Go value of type map[string]interface \x7b\x7d")

/-! ## BSON documents and the store -/

/-- A BSON value that is not a document.  The kind is part of the value: an object id and
a string never compare equal. -/
inductive BScalar where
  | oid (id : ObjectId)
  | str (bytes : List Byte)
  | int (n : Int)
deriving DecidableEq, Repr

/-- The BSON string the encoder writes for a Go string holding the text `s`. -/
def BScalar.text (s : String) : BScalar := .str (goBytes s)

/-- A BSON value, to the nesting depth this program writes. -/
inductive BVal where
  | val (s : BScalar)
  | doc (fields : List (String × BScalar))
deriving DecidableEq, Repr

/-- A BSON document: its elements in order. -/
abbrev Doc := List (String × BVal)

/-- The `bson` encoder on a value of type `ObjectId`: it refuses a value that is not
12 bytes long (`bson.Marshal` returns that as its error). -/
def bsonObjectId (id : ObjectId) : Except String BVal :=
  if id.bytes.length ≠ 12 then
    .error ("ObjectIDs must be exactly 12 bytes long (got " ++ toString id.bytes.length ++ ")")
  else .ok (.val (.oid id))

/-- Go `bson.Marshal(board)`. -/
def Board.toBSON (b : Board) : Except String Doc :=
  match bsonObjectId b.Id with
  | .error e => .error e
  | .ok id => .ok [("_id", id), ("title", .val (.text b.Title))]

/-- Go `bson.Marshal(postit)`: the exported fields, lower-cased names unless tagged. -/
def Postit.toBSON (p : Postit) : Except String Doc :=
  match bsonObjectId p.Id with
  | .error e => .error e
  | .ok id =>
    match bsonObjectId p.BoardId with
    | .error e => .error e
    | .ok bid =>
      .ok [("_id", id), ("board_id", bid), ("title", .val (.text p.Title)),
           ("coords", .doc [("x", .int p.Coords.X), ("y", .int p.Coords.Y)]),
           ("size", .doc [("w", .int p.Size.W), ("h", .int p.Size.H)]),
           ("color", .val (.text p.Color))]

/-- Object id held by an element, the empty id when the element is absent or of another
kind. -/
def Doc.oidAt (d : Doc) (key : String) : ObjectId :=
  match d.lookup key with
  | some (.val (.oid id)) => id
  | _ => ⟨[]⟩

/-- Text of the string held by an element, empty when absent or of another kind. -/
def Doc.strAt (d : Doc) (key : String) : String :=
  match d.lookup key with
  | some (.val (.str bytes)) => goText bytes
  | _ => ""

/-- Integer held by an element of a sub-document, zero when absent or of another kind. -/
def Doc.intAt (d : Doc) (key sub : String) : Int :=
  match d.lookup key with
  | some (.doc fields) =>
    match fields.lookup sub with
    | some (.int n) => n
    | _ => 0
  | _ => 0

/-- Go `bson.Unmarshal` of a stored document into a `Board` (elements of a kind this program
never writes are read as the zero value). -/
def Board.ofBSON (d : Doc) : Board :=
  { Id := d.oidAt "_id", Title := d.strAt "title" }

/-- Go `bson.Unmarshal` of a stored document into a `Postit`. -/
def Postit.ofBSON (d : Doc) : Postit :=
  { Id := d.oidAt "_id", BoardId := d.oidAt "board_id", Title := d.strAt "title",
    Coords := { X := d.intAt "coords" "x", Y := d.intAt "coords" "y" },
    Size := { W := d.intAt "size" "w", H := d.intAt "size" "h" },
    angle := 0, Color := d.strAt "color" }

/-- A MongoDB equality query: every queried field is present with an equal value
(same kind, same content). -/
def Doc.matchesQuery (query d : Doc) : Bool :=
  query.all (fun kv => d.lookup kv.1 == some kv.2)

/-- Go `c.Insert(doc)`: the round trip may fail (`fault`), the encoder may refuse the value,
and the server refuses a second document with the same `_id`; otherwise the document is
appended. -/
def Collection.Insert (fault : Option String) (c : List Doc) (marshalled : Except String Doc) :
    Except String (List Doc) :=
  match fault with
  | some e => .error e
  | none =>
    match marshalled with
    | .error e => .error e
    | .ok d =>
      if c.any (fun x => x.lookup "_id" == d.lookup "_id") then
        .error "E11000 duplicate key error"
      else .ok (c ++ [d])

/-- Go `c.Find(query).All(&result)`: the matching documents in insertion order. -/
def Collection.FindAll (fault : Option String) (c : List Doc) (query : Doc) :
    Except String (List Doc) :=
  match fault with
  | some e => .error e
  | none => .ok (c.filter (Doc.matchesQuery query))

/-- Go `c.Find(query).One(&result)`: the first matching document, `not found` when there is
none. -/
def Collection.FindOne (fault : Option String) (c : List Doc) (query : Doc) :
    Except String Doc :=
  match fault with
  | some e => .error e
  | none =>
    match c.find? (Doc.matchesQuery query) with
    | some d => .ok d
    | none => .error "not found"

/-- The database `db`: the collections the handlers use (`lines` is never touched). -/
structure DB where
  boards : List Doc
  postits : List Doc
deriving DecidableEq, Repr

/-! ## net/http: cookies, the response writer, the request -/

/-- Go `http.Cookie`, the fields this program sets. -/
structure Cookie where
  Name : String
  Value : String
  Path : String
deriving DecidableEq, Repr

/-- One `Write` to the response: plain text, or a byte string holding JSON. -/
inductive Payload where
  | text (s : String)
  | bytes (b : Bytes)

/-- Canonical form of a header key given by its codes: the first letter and every letter
after a hyphen upper case, the others lower case. -/
def canonicalCodes : Bool → List Nat → List Nat
  | _, [] => []
  | upper, c :: cs =>
    (if upper ∧ 97 ≤ c ∧ c ≤ 122 then c - 32
     else if ¬ upper ∧ 65 ≤ c ∧ c ≤ 90 then c + 32
     else c) :: canonicalCodes (c == 45) cs

/-- Go `textproto.CanonicalMIMEHeaderKey` (on a key made of token characters). -/
def CanonicalMIMEHeaderKey (key : String) : String :=
  String.mk ((canonicalCodes true (key.data.map Char.toNat)).map Char.ofNat)

/-- Go `http.ResponseWriter`: the header map (as its entries in order), the `Set-Cookie`
lines (kept structured), the status once the header is written, and what was written. -/
structure ResponseWriter where
  header : List (String × String)
  cookies : List Cookie
  status : Option Nat
  body : List Payload

/-- The writer the server hands to a handler. -/
def ResponseWriter.fresh : ResponseWriter :=
  { header := [], cookies := [], status := none, body := [] }

/-- Go `w.Header().Add(key, value)`; a change made after the header is written is not sent. -/
def ResponseWriter.AddHeader (w : ResponseWriter) (key value : String) : ResponseWriter :=
  match w.status with
  | some _ => w
  | none => { w with header := w.header ++ [(CanonicalMIMEHeaderKey key, value)] }

/-- Go `w.Header().Set(key, value)`. -/
def ResponseWriter.SetHeader (w : ResponseWriter) (key value : String) : ResponseWriter :=
  match w.status with
  | some _ => w
  | none =>
    { w with header :=
        w.header.filter (fun kv => kv.1 != CanonicalMIMEHeaderKey key) ++
          [(CanonicalMIMEHeaderKey key, value)] }

/-- Go `w.Header()[key]`: the values sent under a key. -/
def ResponseWriter.Values (w : ResponseWriter) (key : String) : List String :=
  (w.header.filter (fun kv => kv.1 == CanonicalMIMEHeaderKey key)).map (fun kv => kv.2)

/-- Go `w.WriteHeader(code)`: only the first call counts. -/
def ResponseWriter.WriteHeader (w : ResponseWriter) (code : Nat) : ResponseWriter :=
  match w.status with
  | some _ => w
  | none => { w with status := some code }

/-- Go `w.Write(b)`: writes the header with status 200 if it is not written yet. -/
def ResponseWriter.Write (w : ResponseWriter) (p : Payload) : ResponseWriter :=
  { w.WriteHeader 200 with body := (w.WriteHeader 200).body ++ [p] }

/-- Go `http.SetCookie(w, cookie)`: one more `Set-Cookie` line. -/
def SetCookie (w : ResponseWriter) (cookie : Cookie) : ResponseWriter :=
  match w.status with
  | some _ => w
  | none => { w with cookies := w.cookies ++ [cookie] }

/-- Go `http.Error(w, error, code)`: plain-text content type, the status, the message and
a newline. -/
def httpError (w : ResponseWriter) (error : String) (code : Nat) : ResponseWriter :=
  ((w.SetHeader "Content-Type" "text/plain; charset=utf-8").WriteHeader code).Write
    (.text (error ++ "\n"))

/-- Go `http.NotFound(w, r)`. -/
def httpNotFound (w : ResponseWriter) : ResponseWriter :=
  httpError w "404 page not found" 404

/-- Go `*http.Request`, the parts the handlers read: the cookies of the `Cookie` header,
the path parameter `r.URL.Query().Get(":id")` set by the router (a Go string: any bytes,
after percent-decoding), and the body as `ioutil.ReadAll` returns it. -/
structure Request where
  cookies : List Cookie
  pathId : List Byte
  body : Bytes

/-- Go `r.Cookie(name)`: the first cookie of that name, `none` for `ErrNoCookie`. -/
def Request.Cookie (r : Request) (name : String) : Option Cookie :=
  r.cookies.find? (fun c => c.Name == name)

/-! ## The outside world -/

/-- Go `*securecookie.SecureCookie` built from the secret: its two methods, as functions.
`Decode` returns the decoded value in place of writing it through the pointer. -/
structure SecureCookie where
  Encode : String → String → Except String String
  Decode : String → String → Except String String

/-- How the round trip `http.PostForm` to the verifier followed by `ioutil.ReadAll` ends. -/
inductive PostFormResult where
  /-- The call `http.PostForm` returned an error. -/
  | failed (err : String)
  /-- Reading the response body returned an error. -/
  | unreadable (err : String)
  /-- The bytes of the response body. -/
  | body (bytes : Bytes)

/-- What the handlers take from outside during one request: the globals `host` and
`scookie`, the identifier `bson.NewObjectId()` returns, the failure of the store round trip
if there is one, and the verifier. -/
structure Env where
  host : String
  scookie : SecureCookie
  newObjectId : ObjectId
  storeFault : Option String
  verifier : String → String → PostFormResult

/-- What the handlers change outside: the database and the forms posted to the verifier
(assertion, audience), oldest first. -/
structure World where
  db : DB
  posted : List (String × String)

/-- Go `http.HandlerFunc`. -/
abbrev HandlerFunc := ResponseWriter → Request → World → ResponseWriter × World

/-! ## The handlers -/

/-- Go `func SignInUser(w http.ResponseWriter, r *http.Request)`. -/
def SignInUser (env : Env) : HandlerFunc := fun w r s =>
  match unmarshalMap r.body with
  | .error err => (httpError w err 500, s)
  | .ok user =>
    match assertionOf user with
    | none => (httpError w "Missing assertion" 500, s)
    | some assertion =>
      let s1 : World := { s with posted := s.posted ++ [(assertion, env.host)] }
      match env.verifier assertion env.host with
      | .failed err => (httpError w err 500, s1)
      | .unreadable err => (httpError w err 500, s1)
      | .body bytes =>
        match jsonUnmarshal BrowserIDResponse.setField "main.BrowserIDResponse" bytes
            BrowserIDResponse.zero with
        | .error err => (httpError w err 500, s1)
        | .ok response =>
          if response.Email = "" then (httpError w "Invalid authentication" 403, s1)
          else
            let w1 :=
              match env.scookie.Encode "email" response.Email with
              | .ok encoded => SetCookie w { Name := "email", Value := encoded, Path := "/" }
              | .error _ => w
            ((w1.AddHeader "content-type" "application/json").Write (.bytes bytes), s1)

/-- Go `func ListBoards`. -/
def ListBoards (env : Env) : HandlerFunc := fun w _ s =>
  match Collection.FindAll env.storeFault s.db.boards [] with
  | .error err => (httpError w err 500, s)
  | .ok docs =>
    let boards := docs.map Board.ofBSON
    ((w.AddHeader "content-type" "application/json").Write
      (.bytes (.ok (marshalSlice Board.MarshalJSON boards))), s)

/-- Go `func CreateBoard`. -/
def CreateBoard (env : Env) : HandlerFunc := fun w r s =>
  let id := env.newObjectId
  let board : Board := { Id := id, Title := "" }
  match jsonUnmarshal Board.setField "main.Board" r.body board with
  | .error err => (httpError w err 500, s)
  | .ok board =>
    match Collection.Insert env.storeFault s.db.boards board.toBSON with
    | .error err => (httpError w err 500, s)
    | .ok boards =>
      ((w.AddHeader "content-type" "application/json").Write
        (.bytes (.ok board.MarshalJSON)), { s with db := { s.db with boards := boards } })

/-- Go `func ShowBoard`.  The path parameter is passed to `FindId` as a Go string, so the
query asks for an `_id` that is a BSON string.  `json.Marshal` of a board cannot fail. -/
def ShowBoard (env : Env) : HandlerFunc := fun w r s =>
  let id := r.pathId
  match Collection.FindOne env.storeFault s.db.boards [("_id", .val (.str id))] with
  | .error _ => (httpNotFound w, s)
  | .ok doc =>
    let board := Board.ofBSON doc
    ((w.AddHeader "content-type" "application/json").Write
      (.bytes (.ok board.MarshalJSON)), s)

/-- Go `func ListPostits`.  The filter `bson.M` holds the path parameter as a Go string. -/
def ListPostits (env : Env) : HandlerFunc := fun w r s =>
  let id := r.pathId
  match Collection.FindAll env.storeFault s.db.postits [("board_id", .val (.str id))] with
  | .error err => (httpError w err 500, s)
  | .ok docs =>
    let postits := docs.map Postit.ofBSON
    ((w.AddHeader "content-type" "application/json").Write
      (.bytes (.ok (marshalSlice Postit.MarshalJSON postits))), s)

/-- Go `func CreatePostit`. -/
def CreatePostit (env : Env) : HandlerFunc := fun w r s =>
  let id := env.newObjectId
  let bid : ObjectId := ⟨r.pathId⟩
  let postit : Postit :=
    { Id := id, BoardId := bid, Title := "", Coords := { X := 0, Y := 0 },
      Size := { W := 0, H := 0 }, angle := 0, Color := "" }
  match jsonUnmarshal Postit.setField "main.Postit" r.body postit with
  | .error err => (httpError w err 500, s)
  | .ok postit =>
    match Collection.Insert env.storeFault s.db.postits postit.toBSON with
    | .error err => (httpError w err 500, s)
    | .ok postits =>
      ((w.AddHeader "content-type" "application/json").Write
        (.bytes (.ok postit.MarshalJSON)), { s with db := { s.db with postits := postits } })

/-- Go `func ApiHandlerFunc(handler http.HandlerFunc) http.HandlerFunc`. -/
def ApiHandlerFunc (env : Env) (handler : HandlerFunc) : HandlerFunc := fun w r s =>
  match r.Cookie "email" with
  | none => (httpError w "Authentication required" 403, s)
  | some cookie =>
    match env.scookie.Decode "email" cookie.Value with
    | .error _ => (httpError w "Authentication required" 403, s)
    | .ok _ => handler w r s

/-- The routes registered in `main`. -/
inductive Route where
  | postUser
  | getBoards
  | postBoards
  | getBoard
  | getPostits
  | postPostits
deriving DecidableEq, Repr

/-- The routing table of `main`: the handler each route is registered with. -/
def Route.handler (env : Env) : Route → HandlerFunc
  | .postUser => SignInUser env
  | .getBoards => ApiHandlerFunc env (ListBoards env)
  | .postBoards => ApiHandlerFunc env (CreateBoard env)
  | .getBoard => ApiHandlerFunc env (ShowBoard env)
  | .getPostits => ApiHandlerFunc env (ListPostits env)
  | .postPostits => ApiHandlerFunc env (CreatePostit env)

/-! ## Concrete surroundings used by the evaluated statements -/

/-- A cookie codec with the length limit of `securecookie` (4096 bytes after encoding):
past it `Encode` fails with `the value is too long`.  The encoding is kept readable: the
field name, an equals sign, the value. -/
def cappedCodec : SecureCookie :=
  { Encode := fun name value =>
      if 4096 < (name ++ "=" ++ value).length then .error "securecookie: the value is too long"
      else .ok (name ++ "=" ++ value),
    Decode := fun name tok =>
      if tok.data.take (name.length + 1) = (name ++ "=").data then
        .ok (String.mk (tok.data.drop (name.length + 1)))
      else .error "securecookie: the value is not valid" }

/-- An empty database and no form posted yet. -/
def emptyWorld : World :=
  { db := { boards := [], postits := [] }, posted := [] }

/-- A verifier that answers every form with the given bytes. -/
def fixedVerifier (answer : Bytes) : String → String → PostFormResult :=
  fun _ _ => .body answer

/-- Surroundings in which the store works, `bson.NewObjectId` returns the bytes 1 to 12 and
the verifier answers with the given bytes. -/
def sampleEnv (answer : Bytes) : Env where
  host := "http://koalab.lo"
  scookie := cappedCodec
  newObjectId := ⟨[1, 2, 3, 4, 5, 6, 7, 8, 9, 10, 11, 12]⟩
  storeFault := none
  verifier := fixedVerifier answer

/-- The same surroundings with the store unreachable. -/
def faultyEnv : Env where
  host := "http://koalab.lo"
  scookie := cappedCodec
  newObjectId := ⟨[1, 2, 3, 4, 5, 6, 7, 8, 9, 10, 11, 12]⟩
  storeFault := some "no reachable servers"
  verifier := fixedVerifier (.error "unexpected end of JSON input")

/-- A request without cookies whose path parameter is the text `path`. -/
def plainRequest (path : String) (body : Bytes) : Request :=
  { cookies := [], pathId := goBytes path, body := body }

/-- The sign-in body with the assertion `abc`. -/
def signInBody : Bytes :=
  .ok (.obj [("assertion", .str "abc")])

/-- A verifier answer whose status is `failure` and that still names an email. -/
def failureAnswer : Bytes :=
  .ok (.obj [("status", .str "failure"), ("email", .str "a@b.com")])

/-- A verifier answer with status `okay` and an email of 5000 letters. -/
def longEmailAnswer : Bytes :=
  .ok (.obj [("status", .str "okay"), ("email", .str (String.mk (List.replicate 5000 'a')))])

/-- A verifier answer with status `okay` and the email `a@b.com`. -/
def okayAnswer : Bytes :=
  .ok (.obj [("status", .str "okay"), ("email", .str "a@b.com")])

/-- What `failureAnswer` decodes to. -/
def failureResponse : BrowserIDResponse :=
  { Status := "failure", Email := "a@b.com", Audience := "", Issuer := "", Expires := 0 }

/-- What `okayAnswer` decodes to. -/
def okayResponse : BrowserIDResponse :=
  { Status := "okay", Email := "a@b.com", Audience := "", Issuer := "", Expires := 0 }

/-- What `longEmailAnswer` decodes to. -/
def longEmailResponse : BrowserIDResponse :=
  { Status := "okay", Email := String.mk (List.replicate 5000 'a'), Audience := "",
    Issuer := "", Expires := 0 }

/-- A board body that brings its own `_id`. -/
def boardBodyWithId : Bytes :=
  .ok (.obj [("_id", .str "aaaaaaaaaaaaaaaaaaaaaaaa"), ("title", .str "t")])

/-- A board body with a title only. -/
def boardBodyTitle : Bytes :=
  .ok (.obj [("title", .str "t")])

/-- The postit body of the scenario: title, coords, size and color. -/
def postitBody : Bytes :=
  .ok (.obj [("title", .str "x"), ("coords", .obj [("x", .num 1), ("y", .num 2)]),
             ("size", .obj [("w", .num 3), ("h", .num 4)]), ("color", .str "red")])

/-- A postit body that brings its own `board_id`. -/
def postitBodyWithBoard : Bytes :=
  .ok (.obj [("title", .str "x"), ("board_id", .str "aaaaaaaaaaaaaaaaaaaaaaaa")])

/-- The board `boardBodyWithId` decodes to: the identifier is the one of the body. -/
def clientBoard : Board :=
  { Id := ⟨[170, 170, 170, 170, 170, 170, 170, 170, 170, 170, 170, 170]⟩, Title := "t" }

/-- The board `boardBodyTitle` decodes to in `sampleEnv`. -/
def titledBoard : Board :=
  { Id := ⟨[1, 2, 3, 4, 5, 6, 7, 8, 9, 10, 11, 12]⟩, Title := "t" }

/-- The postit `postitBodyWithBoard` decodes to in `sampleEnv`, whatever the path. -/
def clientPostit : Postit :=
  { Id := ⟨[1, 2, 3, 4, 5, 6, 7, 8, 9, 10, 11, 12]⟩,
    BoardId := ⟨[170, 170, 170, 170, 170, 170, 170, 170, 170, 170, 170, 170]⟩,
    Title := "x", Coords := { X := 0, Y := 0 }, Size := { W := 0, H := 0 }, angle := 0,
    Color := "" }

/-- The postit `postitBody` decodes to in `sampleEnv` under the path id `abcdefghijkl`. -/
def scenarioPostit : Postit :=
  { Id := ⟨[1, 2, 3, 4, 5, 6, 7, 8, 9, 10, 11, 12]⟩,
    BoardId := ⟨[97, 98, 99, 100, 101, 102, 103, 104, 105, 106, 107, 108]⟩,
    Title := "x", Coords := { X := 1, Y := 2 }, Size := { W := 3, H := 4 }, angle := 0,
    Color := "red" }

/-- The postit `postitBody` decodes to in `sampleEnv` under the path id
`0102030405060708090a0b0c`: its `BoardId` is the 24 characters of the path. -/
def issuedPathPostit : Postit :=
  { Id := ⟨[1, 2, 3, 4, 5, 6, 7, 8, 9, 10, 11, 12]⟩,
    BoardId := ⟨[48, 49, 48, 50, 48, 51, 48, 52, 48, 53, 48, 54, 48, 55, 48, 56, 48, 57, 48, 97,
      48, 98, 48, 99]⟩,
    Title := "x", Coords := { X := 1, Y := 2 }, Size := { W := 3, H := 4 }, angle := 0,
    Color := "red" }

/-- The world after `POST /api/boards` with `boardBodyTitle` on the empty database. -/
def worldWithBoard : World :=
  (CreateBoard (sampleEnv okayAnswer) ResponseWriter.fresh (plainRequest "" boardBodyTitle)
    emptyWorld).2

/-- The world after `POST /api/boards/abcdefghijkl/postits` with `postitBody` on the empty
database. -/
def worldWithPostit : World :=
  (CreatePostit (sampleEnv okayAnswer) ResponseWriter.fresh
    (plainRequest "abcdefghijkl" postitBody) emptyWorld).2

/-- A body that is not JSON. -/
def brokenBody : Bytes :=
  .error "invalid character x looking for beginning of value"

/-- The empty body of a GET request. -/
def emptyBody : Bytes :=
  .error "unexpected end of JSON input"

/-! ## Properties stated over the store and over a response -/

/-- Every board document holds an object id under `_id`, which is what `CreateBoard`
writes: the state of a `boards` collection that only this program fills. -/
def BoardsWritten (s : World) : Prop :=
  ∀ d ∈ s.db.boards, ∃ id, d.lookup "_id" = some (.val (.oid id))

/-- Every postit document holds an object id under `board_id`, which is what `CreatePostit`
writes: the state of a `postits` collection that only this program fills. -/
def PostitsWritten (s : World) : Prop :=
  ∀ d ∈ s.db.postits, ∃ id, d.lookup "board_id" = some (.val (.oid id))


/-- The content type of a response read against its status: `application/json` on 200,
the plain-text type of `http.Error` on 403, 404 and 500, and no other status. -/
def TypedByStatus (w : ResponseWriter) : Prop :=
  (w.status = some 200 ∧ w.Values "Content-Type" = ["application/json"]) ∨
  ((w.status = some 403 ∨ w.status = some 404 ∨ w.status = some 500) ∧
    w.Values "Content-Type" = ["text/plain; charset=utf-8"])

/-! ## The response writer -/

/-- Status of `http.Error` on a fresh writer: the code passed. -/
theorem httpError_fresh_status (msg : String) (code : Nat) :
    (httpError ResponseWriter.fresh msg code).status = some code := rfl

/-- The function `http.Error` sets no cookie. -/
theorem httpError_fresh_cookies (msg : String) (code : Nat) :
    (httpError ResponseWriter.fresh msg code).cookies = [] := rfl

/-- Content type of `http.Error` on a fresh writer. -/
theorem httpError_fresh_values (msg : String) (code : Nat) :
    (httpError ResponseWriter.fresh msg code).Values "Content-Type" =
      ["text/plain; charset=utf-8"] := rfl

/-- Status of a JSON response written on a fresh writer: the implicit 200. -/
theorem json_fresh_status (p : Payload) :
    ((ResponseWriter.fresh.AddHeader "content-type" "application/json").Write p).status =
      some 200 := rfl

/-- Content type of a JSON response written on a fresh writer. -/
theorem json_fresh_values (p : Payload) :
    ((ResponseWriter.fresh.AddHeader "content-type" "application/json").Write p).Values
      "Content-Type" = ["application/json"] := rfl

/-- Body of a JSON response written on a fresh writer: the one payload. -/
theorem json_fresh_body (p : Payload) :
    ((ResponseWriter.fresh.AddHeader "content-type" "application/json").Write p).body = [p] :=
  rfl

/-- A JSON response written on a fresh writer carries no cookie. -/
theorem json_fresh_cookies (p : Payload) :
    ((ResponseWriter.fresh.AddHeader "content-type" "application/json").Write p).cookies = [] :=
  rfl

/-- Status of a JSON response written after one cookie was set. -/
theorem json_cookie_status (c : Cookie) (p : Payload) :
    (((SetCookie ResponseWriter.fresh c).AddHeader "content-type" "application/json").Write
      p).status = some 200 := rfl

/-- Content type of a JSON response written after one cookie was set. -/
theorem json_cookie_values (c : Cookie) (p : Payload) :
    (((SetCookie ResponseWriter.fresh c).AddHeader "content-type" "application/json").Write
      p).Values "Content-Type" = ["application/json"] := rfl

/-- Cookies of a JSON response written after one cookie was set. -/
theorem json_cookie_cookies (c : Cookie) (p : Payload) :
    (((SetCookie ResponseWriter.fresh c).AddHeader "content-type" "application/json").Write
      p).cookies = [c] := rfl

/-- Body of a JSON response written after one cookie was set. -/
theorem json_cookie_body (c : Cookie) (p : Payload) :
    (((SetCookie ResponseWriter.fresh c).AddHeader "content-type" "application/json").Write
      p).body = [p] := rfl

/-! ## C2: the authentication gate -/

/-- C2. For every downstream handler and every request: when the request has no cookie
named `email`, or the codec fails to decode that cookie's value under the name `email`,
the wrapped handler answers 403 with the text `Authentication required`, leaves the world as
it was and its result does not depend on the downstream handler (it is not invoked);
otherwise the wrapped handler does exactly what the downstream handler does, on every
response writer. -/
theorem ApiHandlerFunc_gate (env : Env) (h : HandlerFunc) (r : Request) (s : World) :
    ((r.Cookie "email" = none ∨
        ∃ c e, r.Cookie "email" = some c ∧ env.scookie.Decode "email" c.Value = .error e) →
      ApiHandlerFunc env h ResponseWriter.fresh r s =
          (httpError ResponseWriter.fresh "Authentication required" 403, s) ∧
        (ApiHandlerFunc env h ResponseWriter.fresh r s).1.status = some 403 ∧
        (ApiHandlerFunc env h ResponseWriter.fresh r s).2 = s ∧
        ∀ h2 : HandlerFunc,
          ApiHandlerFunc env h2 ResponseWriter.fresh r s =
            ApiHandlerFunc env h ResponseWriter.fresh r s) ∧
    ((∃ c v, r.Cookie "email" = some c ∧ env.scookie.Decode "email" c.Value = .ok v) →
      ∀ w : ResponseWriter, ApiHandlerFunc env h w r s = h w r s) := by
  constructor
  · intro hfail
    have key : ∀ g : HandlerFunc, ApiHandlerFunc env g ResponseWriter.fresh r s =
        (httpError ResponseWriter.fresh "Authentication required" 403, s) := by
      intro g
      rcases hfail with hnone | ⟨c, e, hc, hd⟩
      · simp [ApiHandlerFunc, hnone]
      · simp [ApiHandlerFunc, hc, hd]
    refine ⟨key h, ?_, ?_, ?_⟩
    · rw [key h]; rfl
    · rw [key h]
    · intro h2; rw [key h2, key h]
  · rintro ⟨c, v, hc, hd⟩ w
    simp [ApiHandlerFunc, hc, hd]

/-- A request carrying the cookie `email=email=a@b.com`, which `cappedCodec` decodes. -/
theorem ApiHandlerFunc_gate_witness :
    ((sampleEnv okayAnswer).scookie.Decode "email" "email=a@b.com" = .ok "a@b.com") ∧
    (∀ w : ResponseWriter,
      ApiHandlerFunc (sampleEnv okayAnswer) (ListBoards (sampleEnv okayAnswer)) w
          { cookies := [{ Name := "email", Value := "email=a@b.com", Path := "" }],
            pathId := [], body := brokenBody } emptyWorld =
        ListBoards (sampleEnv okayAnswer) w
          { cookies := [{ Name := "email", Value := "email=a@b.com", Path := "" }],
            pathId := [], body := brokenBody } emptyWorld) ∧
    (ApiHandlerFunc (sampleEnv okayAnswer) (ListBoards (sampleEnv okayAnswer))
        ResponseWriter.fresh (plainRequest "" brokenBody) emptyWorld).1.status = some 403 :=
  ⟨rfl,
   (ApiHandlerFunc_gate (sampleEnv okayAnswer) (ListBoards (sampleEnv okayAnswer))
      { cookies := [{ Name := "email", Value := "email=a@b.com", Path := "" }],
        pathId := [], body := brokenBody } emptyWorld).2
      ⟨{ Name := "email", Value := "email=a@b.com", Path := "" }, "a@b.com", by decide, rfl⟩,
   ((ApiHandlerFunc_gate (sampleEnv okayAnswer) (ListBoards (sampleEnv okayAnswer))
      (plainRequest "" brokenBody) emptyWorld).1 (Or.inl (by decide))).2.1⟩

/-! ## C9: a body that does not parse -/

/-- C9. For each handler that reads a body, on every request: when `json.Unmarshal` of the
body returns an error (a syntax error, or a value that does not fit the target), the
response status is 500 and nothing else happens: the world is as before (nothing inserted,
no form posted to the verifier) and no cookie is set. -/
theorem unparsable_body_500 (env : Env) (r : Request) (s : World) :
    (∀ e, unmarshalMap r.body = .error e →
      (SignInUser env ResponseWriter.fresh r s).1.status = some 500 ∧
      (SignInUser env ResponseWriter.fresh r s).1.cookies = [] ∧
      (SignInUser env ResponseWriter.fresh r s).2 = s) ∧
    (∀ e, jsonUnmarshal Board.setField "main.Board" r.body
          { Id := env.newObjectId, Title := "" } = .error e →
      (CreateBoard env ResponseWriter.fresh r s).1.status = some 500 ∧
      (CreateBoard env ResponseWriter.fresh r s).1.cookies = [] ∧
      (CreateBoard env ResponseWriter.fresh r s).2 = s) ∧
    (∀ e, jsonUnmarshal Postit.setField "main.Postit" r.body
          { Id := env.newObjectId, BoardId := ObjectId.mk r.pathId, Title := "",
            Coords := { X := 0, Y := 0 }, Size := { W := 0, H := 0 }, angle := 0,
            Color := "" } = .error e →
      (CreatePostit env ResponseWriter.fresh r s).1.status = some 500 ∧
      (CreatePostit env ResponseWriter.fresh r s).1.cookies = [] ∧
      (CreatePostit env ResponseWriter.fresh r s).2 = s) := by
  refine ⟨?_, ?_, ?_⟩
  · intro e he
    simp [SignInUser, he, httpError_fresh_status, httpError_fresh_cookies]
  · intro e he
    simp [CreateBoard, he, httpError_fresh_status, httpError_fresh_cookies]
  · intro e he
    simp [CreatePostit, he, httpError_fresh_status, httpError_fresh_cookies]

/-- The three handlers on the body `brokenBody`, in the surroundings `sampleEnv`. -/
theorem unparsable_body_500_witness :
    ((SignInUser (sampleEnv okayAnswer) ResponseWriter.fresh (plainRequest "abcdefghijkl"
        brokenBody) emptyWorld).1.status = some 500 ∧
      (SignInUser (sampleEnv okayAnswer) ResponseWriter.fresh (plainRequest "abcdefghijkl"
        brokenBody) emptyWorld).1.cookies = [] ∧
      (SignInUser (sampleEnv okayAnswer) ResponseWriter.fresh (plainRequest "abcdefghijkl"
        brokenBody) emptyWorld).2 = emptyWorld) ∧
    ((CreateBoard (sampleEnv okayAnswer) ResponseWriter.fresh (plainRequest "abcdefghijkl"
        brokenBody) emptyWorld).1.status = some 500 ∧
      (CreateBoard (sampleEnv okayAnswer) ResponseWriter.fresh (plainRequest "abcdefghijkl"
        brokenBody) emptyWorld).1.cookies = [] ∧
      (CreateBoard (sampleEnv okayAnswer) ResponseWriter.fresh (plainRequest "abcdefghijkl"
        brokenBody) emptyWorld).2 = emptyWorld) ∧
    ((CreatePostit (sampleEnv okayAnswer) ResponseWriter.fresh (plainRequest "abcdefghijkl"
        brokenBody) emptyWorld).1.status = some 500 ∧
      (CreatePostit (sampleEnv okayAnswer) ResponseWriter.fresh (plainRequest "abcdefghijkl"
        brokenBody) emptyWorld).1.cookies = [] ∧
      (CreatePostit (sampleEnv okayAnswer) ResponseWriter.fresh (plainRequest "abcdefghijkl"
        brokenBody) emptyWorld).2 = emptyWorld) :=
  ⟨(unparsable_body_500 (sampleEnv okayAnswer) (plainRequest "abcdefghijkl" brokenBody)
      emptyWorld).1 "invalid character x looking for beginning of value" rfl,
   (unparsable_body_500 (sampleEnv okayAnswer) (plainRequest "abcdefghijkl" brokenBody)
      emptyWorld).2.1 "invalid character x looking for beginning of value" rfl,
   (unparsable_body_500 (sampleEnv okayAnswer) (plainRequest "abcdefghijkl" brokenBody)
      emptyWorld).2.2 "invalid character x looking for beginning of value" rfl⟩

/-! ## C8: a failing store operation -/

/-- C8. ShowBoard with the store unreachable: the lookup returns the error
`no reachable servers`, which is not `not found`, and the response status is 404, not 500,
where the four other resource handlers answer 500 (`store_error_status`). -/
theorem ShowBoard_store_fault_404 :
    Collection.FindOne faultyEnv.storeFault emptyWorld.db.boards
        [("_id", .val (.text "abcdefghijkl"))] = .error "no reachable servers" ∧
    (ShowBoard faultyEnv ResponseWriter.fresh (plainRequest "abcdefghijkl" emptyBody)
        emptyWorld).1.status = some 404 ∧
    (ShowBoard faultyEnv ResponseWriter.fresh (plainRequest "abcdefghijkl" emptyBody)
        emptyWorld).1.status ≠ some 500 :=
  ⟨rfl, by decide, by decide⟩

/-- The sibling paths of ShowBoard: on every request, when the store operation of
ListBoards, CreateBoard, ListPostits or CreatePostit returns an error, the response status
is 500. -/
theorem store_error_status (env : Env) (r : Request) (s : World) :
    (∀ e, Collection.FindAll env.storeFault s.db.boards [] = .error e →
      (ListBoards env ResponseWriter.fresh r s).1.status = some 500) ∧
    (∀ board e,
      jsonUnmarshal Board.setField "main.Board" r.body
          { Id := env.newObjectId, Title := "" } = .ok board →
      Collection.Insert env.storeFault s.db.boards board.toBSON = .error e →
      (CreateBoard env ResponseWriter.fresh r s).1.status = some 500) ∧
    (∀ e, Collection.FindAll env.storeFault s.db.postits
          [("board_id", .val (.str r.pathId))] = .error e →
      (ListPostits env ResponseWriter.fresh r s).1.status = some 500) ∧
    (∀ postit e,
      jsonUnmarshal Postit.setField "main.Postit" r.body
          { Id := env.newObjectId, BoardId := ObjectId.mk r.pathId, Title := "",
            Coords := { X := 0, Y := 0 }, Size := { W := 0, H := 0 }, angle := 0,
            Color := "" } = .ok postit →
      Collection.Insert env.storeFault s.db.postits postit.toBSON = .error e →
      (CreatePostit env ResponseWriter.fresh r s).1.status = some 500) := by
  refine ⟨?_, ?_, ?_, ?_⟩
  · intro e he
    simp [ListBoards, he, httpError_fresh_status]
  · intro board e hp he
    simp [CreateBoard, hp, he, httpError_fresh_status]
  · intro e he
    simp [ListPostits, he, httpError_fresh_status]
  · intro postit e hp he
    simp [CreatePostit, hp, he, httpError_fresh_status]

/-- The four handlers with the store unreachable (`faultyEnv`), on the bodies
`boardBodyTitle` and `postitBody`. -/
theorem store_error_status_witness :
    (ListBoards faultyEnv ResponseWriter.fresh (plainRequest "abcdefghijkl" emptyBody)
        emptyWorld).1.status = some 500 ∧
    (CreateBoard faultyEnv ResponseWriter.fresh (plainRequest "abcdefghijkl" boardBodyTitle)
        emptyWorld).1.status = some 500 ∧
    (ListPostits faultyEnv ResponseWriter.fresh (plainRequest "abcdefghijkl" emptyBody)
        emptyWorld).1.status = some 500 ∧
    (CreatePostit faultyEnv ResponseWriter.fresh (plainRequest "abcdefghijkl" postitBody)
        emptyWorld).1.status = some 500 :=
  ⟨(store_error_status faultyEnv (plainRequest "abcdefghijkl" emptyBody) emptyWorld).1
      "no reachable servers" rfl,
   (store_error_status faultyEnv (plainRequest "abcdefghijkl" boardBodyTitle) emptyWorld).2.1
      { Id := ⟨[1, 2, 3, 4, 5, 6, 7, 8, 9, 10, 11, 12]⟩, Title := "t" }
      "no reachable servers" rfl rfl,
   (store_error_status faultyEnv (plainRequest "abcdefghijkl" emptyBody) emptyWorld).2.2.1
      "no reachable servers" rfl,
   (store_error_status faultyEnv (plainRequest "abcdefghijkl" postitBody) emptyWorld).2.2.2
      { Id := ⟨[1, 2, 3, 4, 5, 6, 7, 8, 9, 10, 11, 12]⟩,
        BoardId := ObjectId.ofString "abcdefghijkl", Title := "x",
        Coords := { X := 1, Y := 2 }, Size := { W := 3, H := 4 }, angle := 0, Color := "red" }
      "no reachable servers" rfl rfl⟩

/-! ## C10: the content type of a response -/

/-- Responses of `http.Error` with status 403, 404 or 500 are typed by their status. -/
theorem typed_httpError (msg : String) (code : Nat)
    (hcode : code = 403 ∨ code = 404 ∨ code = 500) :
    TypedByStatus (httpError ResponseWriter.fresh msg code) := by
  right
  rw [httpError_fresh_status, httpError_fresh_values]
  refine ⟨?_, rfl⟩
  rcases hcode with h | h | h <;> simp [h]

/-- A JSON response is typed by its status. -/
theorem typed_json (p : Payload) :
    TypedByStatus ((ResponseWriter.fresh.AddHeader "content-type" "application/json").Write p) :=
  Or.inl ⟨rfl, rfl⟩

/-- A JSON response with a cookie is typed by its status. -/
theorem typed_json_cookie (c : Cookie) (p : Payload) :
    TypedByStatus (((SetCookie ResponseWriter.fresh c).AddHeader "content-type"
      "application/json").Write p) :=
  Or.inl ⟨rfl, rfl⟩

/-- Every response of SignInUser is typed by its status. -/
theorem typed_SignInUser (env : Env) (r : Request) (s : World) :
    TypedByStatus (SignInUser env ResponseWriter.fresh r s).1 := by
  unfold SignInUser
  dsimp only
  split
  · exact typed_httpError _ _ (by simp)
  · split
    · exact typed_httpError _ _ (by simp)
    · split
      · exact typed_httpError _ _ (by simp)
      · exact typed_httpError _ _ (by simp)
      · split
        · exact typed_httpError _ _ (by simp)
        · split
          · exact typed_httpError _ _ (by simp)
          · split
            · exact typed_json_cookie _ _
            · exact typed_json _

/-- Every response of ListBoards is typed by its status. -/
theorem typed_ListBoards (env : Env) (r : Request) (s : World) :
    TypedByStatus (ListBoards env ResponseWriter.fresh r s).1 := by
  unfold ListBoards
  dsimp only
  split
  · exact typed_httpError _ _ (by simp)
  · exact typed_json _

/-- Every response of CreateBoard is typed by its status. -/
theorem typed_CreateBoard (env : Env) (r : Request) (s : World) :
    TypedByStatus (CreateBoard env ResponseWriter.fresh r s).1 := by
  unfold CreateBoard
  dsimp only
  split
  · exact typed_httpError _ _ (by simp)
  · split
    · exact typed_httpError _ _ (by simp)
    · exact typed_json _

/-- Every response of ShowBoard is typed by its status. -/
theorem typed_ShowBoard (env : Env) (r : Request) (s : World) :
    TypedByStatus (ShowBoard env ResponseWriter.fresh r s).1 := by
  unfold ShowBoard
  dsimp only
  split
  · exact typed_httpError _ _ (by simp)
  · exact typed_json _

/-- Every response of ListPostits is typed by its status. -/
theorem typed_ListPostits (env : Env) (r : Request) (s : World) :
    TypedByStatus (ListPostits env ResponseWriter.fresh r s).1 := by
  unfold ListPostits
  dsimp only
  split
  · exact typed_httpError _ _ (by simp)
  · exact typed_json _

/-- Every response of CreatePostit is typed by its status. -/
theorem typed_CreatePostit (env : Env) (r : Request) (s : World) :
    TypedByStatus (CreatePostit env ResponseWriter.fresh r s).1 := by
  unfold CreatePostit
  dsimp only
  split
  · exact typed_httpError _ _ (by simp)
  · split
    · exact typed_httpError _ _ (by simp)
    · exact typed_json _

/-- The wrapper keeps responses typed by their status. -/
theorem typed_ApiHandlerFunc (env : Env) (h : HandlerFunc) (r : Request) (s : World)
    (hh : TypedByStatus (h ResponseWriter.fresh r s).1) :
    TypedByStatus (ApiHandlerFunc env h ResponseWriter.fresh r s).1 := by
  unfold ApiHandlerFunc
  split
  · exact typed_httpError _ _ (by simp)
  · split
    · exact typed_httpError _ _ (by simp)
    · exact hh

/-- C10. CreateBoard on a body that is not JSON answers 500 with the content type
`text/plain; charset=utf-8`, not `application/json`. -/
theorem CreateBoard_500_plain_text :
    (Route.handler (sampleEnv okayAnswer) Route.postBoards ResponseWriter.fresh
        { cookies := [{ Name := "email", Value := "email=a@b.com", Path := "" }],
          pathId := [], body := brokenBody } emptyWorld).1.status = some 500 ∧
    (Route.handler (sampleEnv okayAnswer) Route.postBoards ResponseWriter.fresh
        { cookies := [{ Name := "email", Value := "email=a@b.com", Path := "" }],
          pathId := [], body := brokenBody } emptyWorld).1.Values "Content-Type" =
      ["text/plain; charset=utf-8"] ∧
    (Route.handler (sampleEnv okayAnswer) Route.postBoards ResponseWriter.fresh
        { cookies := [{ Name := "email", Value := "email=a@b.com", Path := "" }],
          pathId := [], body := brokenBody } emptyWorld).1.Values "Content-Type" ≠
      ["application/json"] := by
  refine ⟨by decide, by decide, by decide⟩

/-- C10 (amended). For every route of `main` and for each of the five resource handlers
taken alone, on every request and every state of the world, the response has status 200 and
the content type `application/json`, or status 403, 404 or 500 and the content type
`text/plain; charset=utf-8` that `http.Error` sets. -/
theorem content_type_by_status (env : Env) (route : Route) (r : Request) (s : World) :
    TypedByStatus (Route.handler env route ResponseWriter.fresh r s).1 ∧
    TypedByStatus (ListBoards env ResponseWriter.fresh r s).1 ∧
    TypedByStatus (CreateBoard env ResponseWriter.fresh r s).1 ∧
    TypedByStatus (ShowBoard env ResponseWriter.fresh r s).1 ∧
    TypedByStatus (ListPostits env ResponseWriter.fresh r s).1 ∧
    TypedByStatus (CreatePostit env ResponseWriter.fresh r s).1 := by
  refine ⟨?_, typed_ListBoards env r s, typed_CreateBoard env r s, typed_ShowBoard env r s,
    typed_ListPostits env r s, typed_CreatePostit env r s⟩
  cases route
  · exact typed_SignInUser env r s
  · exact typed_ApiHandlerFunc env _ r s (typed_ListBoards env r s)
  · exact typed_ApiHandlerFunc env _ r s (typed_CreateBoard env r s)
  · exact typed_ApiHandlerFunc env _ r s (typed_ShowBoard env r s)
  · exact typed_ApiHandlerFunc env _ r s (typed_ListPostits env r s)
  · exact typed_ApiHandlerFunc env _ r s (typed_CreatePostit env r s)

/-! ## C1, C7: signing in -/

/-- C1. SignInUser on a verifier answer whose status is `failure` and whose email is
`a@b.com`: the decoded response is not `Okay`, yet the response status is 200 (not 403)
and the session cookie for `a@b.com` is set. -/
theorem SignInUser_ignores_status :
    jsonUnmarshal BrowserIDResponse.setField "main.BrowserIDResponse" failureAnswer
        BrowserIDResponse.zero =
      .ok failureResponse ∧
    failureResponse.Okay = false ∧
    (SignInUser (sampleEnv failureAnswer) ResponseWriter.fresh (plainRequest "" signInBody)
        emptyWorld).1.status = some 200 ∧
    (SignInUser (sampleEnv failureAnswer) ResponseWriter.fresh (plainRequest "" signInBody)
        emptyWorld).1.cookies = [{ Name := "email", Value := "email=a@b.com", Path := "/" }] :=
  ⟨rfl, by decide, by decide, by decide⟩

/-- SignInUser past the check of the email: the form was posted, the cookie is set when
`Encode` succeeds, and the bytes of the verifier are written with the JSON content type. -/
theorem SignInUser_reaches_verifier (env : Env) (r : Request) (s : World)
    (user : List (String × JSON)) (assertion : String) (bytes : Bytes)
    (response : BrowserIDResponse)
    (hbody : unmarshalMap r.body = .ok user) (hassert : assertionOf user = some assertion)
    (hverifier : env.verifier assertion env.host = .body bytes)
    (hparse : jsonUnmarshal BrowserIDResponse.setField "main.BrowserIDResponse" bytes
        BrowserIDResponse.zero = .ok response)
    (hemail : response.Email ≠ "") :
    SignInUser env ResponseWriter.fresh r s =
      (((match env.scookie.Encode "email" response.Email with
          | .ok encoded =>
            SetCookie ResponseWriter.fresh { Name := "email", Value := encoded, Path := "/" }
          | .error _ => ResponseWriter.fresh).AddHeader "content-type"
            "application/json").Write (.bytes bytes),
        { s with posted := s.posted ++ [(assertion, env.host)] }) := by
  simp [SignInUser, hbody, hassert, hverifier, hparse, hemail]

/-- The codec `cappedCodec` refuses a value of more than 4090 characters under the name
`email`. -/
theorem cappedCodec_too_long (value : String) (hlong : 4090 < value.length) :
    cappedCodec.Encode "email" value = .error "securecookie: the value is too long" := by
  have h5 : "email".length = 5 := by decide
  have h1 : "=".length = 1 := by decide
  simp only [cappedCodec, String.length_append, h5, h1]
  rw [if_pos (by omega)]

/-- Length of the email of `longEmailAnswer`. -/
theorem longEmail_length : (String.mk (List.replicate 5000 'a')).length = 5000 :=
  List.length_replicate 5000 'a'

/-- C7. SignInUser on a verifier answer with status `okay` and an email of 5000 letters,
with a codec that refuses values past the length limit: the response status is 200 and
no cookie is set. -/
theorem SignInUser_long_email_no_cookie :
    jsonUnmarshal BrowserIDResponse.setField "main.BrowserIDResponse" longEmailAnswer
        BrowserIDResponse.zero =
      .ok longEmailResponse ∧
    longEmailResponse.Okay = true ∧
    longEmailResponse.Email ≠ "" ∧
    (SignInUser (sampleEnv longEmailAnswer) ResponseWriter.fresh (plainRequest "" signInBody)
        emptyWorld).1.status = some 200 ∧
    (SignInUser (sampleEnv longEmailAnswer) ResponseWriter.fresh (plainRequest "" signInBody)
        emptyWorld).1.cookies = [] := by
  have hne : String.mk (List.replicate 5000 'a') ≠ "" := by
    intro h
    have := congrArg String.length h
    rw [longEmail_length] at this
    exact absurd this (by decide)
  have hrun := SignInUser_reaches_verifier (sampleEnv longEmailAnswer)
    (plainRequest "" signInBody) emptyWorld [("assertion", .str "abc")] "abc" longEmailAnswer
    longEmailResponse rfl rfl rfl rfl hne
  have henc : (sampleEnv longEmailAnswer).scookie.Encode "email"
      (String.mk (List.replicate 5000 'a')) = .error "securecookie: the value is too long" :=
    cappedCodec_too_long _ (by rw [longEmail_length]; decide)
  have henc2 : (sampleEnv longEmailAnswer).scookie.Encode "email" longEmailResponse.Email =
      .error "securecookie: the value is too long" := henc
  refine ⟨rfl, by decide, hne, ?_, ?_⟩
  · rw [hrun, henc2]; rfl
  · rw [hrun, henc2]; rfl

/-- C7 (amended). For every verifier answer that parses with status `okay` and a non-empty
email, when the codec encodes the email under the name `email`, SignInUser answers 200 with
the content type `application/json`, sets exactly one cookie, named `email`, with path `/`
and the encoding as its value, and writes the verifier's bytes as the body. -/
theorem SignInUser_okay (env : Env) (r : Request) (s : World)
    (user : List (String × JSON)) (assertion : String) (bytes : Bytes)
    (response : BrowserIDResponse) (encoded : String)
    (hbody : unmarshalMap r.body = .ok user) (hassert : assertionOf user = some assertion)
    (hverifier : env.verifier assertion env.host = .body bytes)
    (hparse : jsonUnmarshal BrowserIDResponse.setField "main.BrowserIDResponse" bytes
        BrowserIDResponse.zero = .ok response)
    (hokay : response.Okay = true) (hemail : response.Email ≠ "")
    (hencode : env.scookie.Encode "email" response.Email = .ok encoded) :
    (SignInUser env ResponseWriter.fresh r s).1.status = some 200 ∧
    (SignInUser env ResponseWriter.fresh r s).1.cookies =
      [{ Name := "email", Value := encoded, Path := "/" }] ∧
    (SignInUser env ResponseWriter.fresh r s).1.body = [.bytes bytes] ∧
    (SignInUser env ResponseWriter.fresh r s).1.Values "Content-Type" =
      ["application/json"] := by
  have _ := hokay
  rw [SignInUser_reaches_verifier env r s user assertion bytes response hbody hassert
    hverifier hparse hemail, hencode]
  exact ⟨rfl, rfl, rfl, rfl⟩

/-- The scenario of the specification: the verifier answers status `okay`, email `a@b.com`. -/
theorem SignInUser_okay_witness :
    (SignInUser (sampleEnv okayAnswer) ResponseWriter.fresh (plainRequest "" signInBody)
        emptyWorld).1.status = some 200 ∧
    (SignInUser (sampleEnv okayAnswer) ResponseWriter.fresh (plainRequest "" signInBody)
        emptyWorld).1.cookies = [{ Name := "email", Value := "email=a@b.com", Path := "/" }] ∧
    (SignInUser (sampleEnv okayAnswer) ResponseWriter.fresh (plainRequest "" signInBody)
        emptyWorld).1.body = [.bytes okayAnswer] ∧
    (SignInUser (sampleEnv okayAnswer) ResponseWriter.fresh (plainRequest "" signInBody)
        emptyWorld).1.Values "Content-Type" = ["application/json"] :=
  SignInUser_okay (sampleEnv okayAnswer) (plainRequest "" signInBody) emptyWorld
    [("assertion", .str "abc")] "abc" okayAnswer
    okayResponse "email=a@b.com" rfl rfl rfl rfl (by decide) (by decide) rfl

/-! ## C3, C4: which identifiers a created record carries -/

/-- A name equals itself under case folding. -/
theorem equalFold_self (name : String) : equalFold name name = true := by
  simp [equalFold]

/-- The field selected for a key has a name equal to the key under case folding. -/
theorem fieldIndex_fold (names : List String) (key : String) (i : Nat)
    (h : fieldIndex names key = some i) :
    ∃ name, names[i]? = some name ∧ equalFold name key = true := by
  unfold fieldIndex at h
  split at h
  · rename_i j hj
    cases h
    have hp := List.findIdx?_of_eq_some hj
    revert hp
    cases hget : names[i]? with
    | none => simp
    | some name =>
      intro hp
      have : name = key := by simpa using hp
      exact ⟨name, rfl, this ▸ equalFold_self name⟩
  · have hp := List.findIdx?_of_eq_some h
    revert hp
    cases hget : names[i]? with
    | none => simp
    | some name => intro hp; exact ⟨name, rfl, by simpa using hp⟩

/-- If storing a member whose key is in `keep` never changes the projection `proj`, decoding
an object all of whose keys are in `keep` does not change it. -/
theorem decodeObject_preserves {α β : Type} (setField : String → JSON → α → FieldResult α)
    (proj : α → β) (keep : String → Prop)
    (hstep : ∀ k v a a1, keep k → setField k v a = .store a1 → proj a1 = proj a) :
    ∀ (members : List (String × JSON)) (a : α) (saved : Option String) (a2 : α)
      (saved2 : Option String),
      (∀ m ∈ members, keep m.1) →
      decodeObject setField members a saved = .ok (a2, saved2) → proj a2 = proj a := by
  intro members
  induction members with
  | nil =>
    intro a saved a2 saved2 _ h
    simp only [decodeObject, Except.ok.injEq, Prod.mk.injEq] at h
    rw [h.1]
  | cons m rest ih =>
    intro a saved a2 saved2 hkeep h
    obtain ⟨k, v⟩ := m
    simp only [decodeObject] at h
    have hk : keep k := hkeep (k, v) (List.mem_cons_self _ _)
    have hrest : ∀ m ∈ rest, keep m.1 := fun m hm => hkeep m (List.mem_cons_of_mem _ hm)
    split at h
    · rename_i a1 hset
      rw [ih a1 saved a2 saved2 hrest h, hstep k v a a1 hk hset]
    · exact ih a _ a2 saved2 hrest h
    · cases h

/-- The same for `json.Unmarshal` on a body: a projection no member of the body touches is
the same before and after. -/
theorem jsonUnmarshal_preserves {α β : Type} (setField : String → JSON → α → FieldResult α)
    (proj : α → β) (keep : String → Prop)
    (hstep : ∀ k v a a1, keep k → setField k v a = .store a1 → proj a1 = proj a)
    (goType : String) (data : Bytes) (x y : α)
    (hkeep : ∀ members, data = .ok (.obj members) → ∀ m ∈ members, keep m.1)
    (h : jsonUnmarshal setField goType data x = .ok y) : proj y = proj x := by
  unfold jsonUnmarshal at h
  split at h
  · cases h
  · rename_i v
    split at h
    · cases h
    · cases h
    · rename_i a hdec
      cases h
      unfold decodeStruct at hdec
      split at hdec
      · simp only [Except.ok.injEq, Prod.mk.injEq] at hdec
        rw [hdec.1]
      · rename_i members
        exact decodeObject_preserves setField proj keep hstep members x none y none
          (hkeep members rfl) hdec
      · simp at hdec

/-- A mapped field result that stores comes from one that stores. -/
theorem FieldResult_map_store {α β : Type} (f : α → β) (x : FieldResult α) (b : β)
    (h : x.map f = .store b) : ∃ a, x = .store a ∧ b = f a := by
  cases x with
  | store a => exact ⟨a, rfl, by simpa [FieldResult.map] using h.symm⟩
  | mismatch msg => simp [FieldResult.map] at h
  | abort msg => simp [FieldResult.map] at h

/-- A member whose key is not `_id` under case folding leaves the identifier of a board
alone. -/
theorem Board_setField_keeps_Id (k : String) (v : JSON) (b b1 : Board)
    (hk : equalFold "_id" k = false) (h : Board.setField k v b = .store b1) :
    b1.Id = b.Id := by
  unfold Board.setField at h
  split at h
  · rename_i hidx
    obtain ⟨name, hname, hfold⟩ := fieldIndex_fold _ _ _ hidx
    simp [Board.fieldNames] at hname
    rw [← hname, hk] at hfold
    cases hfold
  · obtain ⟨t, -, rfl⟩ := FieldResult_map_store _ _ _ h
    rfl
  · cases h
    rfl

/-- A member whose key is not `board_id` under case folding leaves the `board_id` of a postit
alone. -/
theorem Postit_setField_keeps_BoardId (k : String) (v : JSON) (p p1 : Postit)
    (hk : equalFold "board_id" k = false) (h : Postit.setField k v p = .store p1) :
    p1.BoardId = p.BoardId := by
  unfold Postit.setField at h
  split at h
  · obtain ⟨t, -, rfl⟩ := FieldResult_map_store _ _ _ h
    rfl
  · rename_i hidx
    obtain ⟨name, hname, hfold⟩ := fieldIndex_fold _ _ _ hidx
    simp [Postit.fieldNames] at hname
    rw [← hname, hk] at hfold
    cases hfold
  · obtain ⟨t, -, rfl⟩ := FieldResult_map_store _ _ _ h
    rfl
  · obtain ⟨t, -, rfl⟩ := FieldResult_map_store _ _ _ h
    rfl
  · obtain ⟨t, -, rfl⟩ := FieldResult_map_store _ _ _ h
    rfl
  · obtain ⟨t, -, rfl⟩ := FieldResult_map_store _ _ _ h
    rfl
  · cases h
    rfl

/-- A successful insert appended the marshalled document. -/
theorem Collection_Insert_ok (fault : Option String) (c : List Doc)
    (marshalled : Except String Doc) (c2 : List Doc)
    (h : Collection.Insert fault c marshalled = .ok c2) :
    ∃ d, marshalled = .ok d ∧ c2 = c ++ [d] := by
  unfold Collection.Insert at h
  split at h
  · cases h
  · split at h
    · cases h
    · rename_i d
      split at h
      · cases h
      · cases h
        exact ⟨d, rfl, rfl⟩

/-- The document of a board that the encoder accepts. -/
theorem Board_toBSON_ok (b : Board) (d : Doc) (h : b.toBSON = .ok d) :
    d = [("_id", .val (.oid b.Id)), ("title", .val (.text b.Title))] := by
  unfold Board.toBSON bsonObjectId at h
  split at h
  · cases h
  · rename_i id hid
    split at hid
    · cases hid
    · cases hid
      cases h
      rfl

/-- The document of a postit that the encoder accepts. -/
theorem Postit_toBSON_ok (p : Postit) (d : Doc) (h : p.toBSON = .ok d) :
    d = [("_id", .val (.oid p.Id)), ("board_id", .val (.oid p.BoardId)),
         ("title", .val (.text p.Title)),
         ("coords", .doc [("x", .int p.Coords.X), ("y", .int p.Coords.Y)]),
         ("size", .doc [("w", .int p.Size.W), ("h", .int p.Size.H)]),
         ("color", .val (.text p.Color))] := by
  unfold Postit.toBSON bsonObjectId at h
  split at h
  · cases h
  · rename_i id hid
    split at h
    · cases h
    · rename_i bid hbid
      split at hid
      · cases hid
      · split at hbid
        · cases hbid
        · cases hid
          cases hbid
          cases h
          rfl

/-- C3. CreateBoard on a body that carries `_id`: the body parses, the insert succeeds,
the status is 200, and the board returned and stored has the identifier of the body, not
the one `bson.NewObjectId` generated. -/
theorem CreateBoard_keeps_client_id :
    jsonUnmarshal Board.setField "main.Board" boardBodyWithId
        { Id := (sampleEnv okayAnswer).newObjectId, Title := "" } = .ok clientBoard ∧
    (CreateBoard (sampleEnv okayAnswer) ResponseWriter.fresh (plainRequest "" boardBodyWithId)
        emptyWorld).1.status = some 200 ∧
    (CreateBoard (sampleEnv okayAnswer) ResponseWriter.fresh (plainRequest "" boardBodyWithId)
        emptyWorld).1.body = [.bytes (.ok clientBoard.MarshalJSON)] ∧
    (CreateBoard (sampleEnv okayAnswer) ResponseWriter.fresh (plainRequest "" boardBodyWithId)
        emptyWorld).2.db.boards =
      [[("_id", .val (.oid clientBoard.Id)), ("title", .val (.text "t"))]] ∧
    clientBoard.Id ≠ (sampleEnv okayAnswer).newObjectId :=
  ⟨rfl, by decide, rfl, by decide, by decide⟩

/-- C3 (amended). For every CreateBoard request whose body parses and has no member named
`_id` (in any letter case) and whose insert succeeds, the status is 200 and the board
returned and stored carries the identifier `bson.NewObjectId` generated. -/
theorem CreateBoard_generated_id (env : Env) (r : Request) (s : World) (board : Board)
    (boards : List Doc)
    (hparse : jsonUnmarshal Board.setField "main.Board" r.body
        { Id := env.newObjectId, Title := "" } = .ok board)
    (hinsert : Collection.Insert env.storeFault s.db.boards board.toBSON = .ok boards)
    (hnoid : ∀ members, r.body = .ok (.obj members) →
        ∀ m ∈ members, equalFold "_id" m.1 = false) :
    board.Id = env.newObjectId ∧
    (CreateBoard env ResponseWriter.fresh r s).1.status = some 200 ∧
    (CreateBoard env ResponseWriter.fresh r s).1.body =
      [.bytes (.ok (.obj [("_id", .str (hexEncode env.newObjectId.bytes)),
                          ("title", .str board.Title)]))] ∧
    (CreateBoard env ResponseWriter.fresh r s).2.db.boards =
      s.db.boards ++ [[("_id", .val (.oid env.newObjectId)),
                       ("title", .val (.text board.Title))]] := by
  have hid : board.Id = env.newObjectId :=
    jsonUnmarshal_preserves Board.setField Board.Id (fun k => equalFold "_id" k = false)
      (fun k v a a1 hk h => Board_setField_keeps_Id k v a a1 hk h) "main.Board" r.body
      { Id := env.newObjectId, Title := "" } board hnoid hparse
  obtain ⟨d, hd, rfl⟩ := Collection_Insert_ok _ _ _ _ hinsert
  have hdoc := Board_toBSON_ok board d hd
  refine ⟨hid, ?_, ?_, ?_⟩
  · simp [CreateBoard, hparse, hinsert, json_fresh_status]
  · simp [CreateBoard, hparse, hinsert, json_fresh_body, Board.MarshalJSON,
      ObjectId.MarshalJSON, hid]
  · simp [CreateBoard, hparse, hinsert, hdoc, hid]

/-- CreateBoard in `sampleEnv` on the body with a title only. -/
theorem CreateBoard_generated_id_witness :
    titledBoard.Id = (sampleEnv okayAnswer).newObjectId ∧
    (CreateBoard (sampleEnv okayAnswer) ResponseWriter.fresh (plainRequest "" boardBodyTitle)
        emptyWorld).1.status = some 200 ∧
    (CreateBoard (sampleEnv okayAnswer) ResponseWriter.fresh (plainRequest "" boardBodyTitle)
        emptyWorld).1.body =
      [.bytes (.ok (.obj [("_id", .str (hexEncode (sampleEnv okayAnswer).newObjectId.bytes)),
                          ("title", .str titledBoard.Title)]))] ∧
    (CreateBoard (sampleEnv okayAnswer) ResponseWriter.fresh (plainRequest "" boardBodyTitle)
        emptyWorld).2.db.boards =
      emptyWorld.db.boards ++ [[("_id", .val (.oid (sampleEnv okayAnswer).newObjectId)),
                                ("title", .val (.text titledBoard.Title))]] :=
  CreateBoard_generated_id (sampleEnv okayAnswer) (plainRequest "" boardBodyTitle) emptyWorld
    titledBoard [[("_id", .val (.oid titledBoard.Id)), ("title", .val (.text "t"))]] rfl rfl
    (by
      intro members hm m hmem
      have hms : members = [("title", .str "t")] := by
        simp only [plainRequest, boardBodyTitle, Except.ok.injEq, JSON.obj.injEq] at hm
        exact hm.symm
      subst hms
      simp only [List.mem_singleton] at hmem
      subst hmem
      decide)

/-- CreatePostit under the path id `abcdefghijkl` on a body that carries `board_id`:
the body parses, the insert succeeds, the status is 200, and the postit returned and stored
has the `board_id` of the body, not the id of the path. -/
theorem CreatePostit_keeps_client_board :
    jsonUnmarshal Postit.setField "main.Postit" postitBodyWithBoard
        { Id := (sampleEnv okayAnswer).newObjectId,
          BoardId := ObjectId.ofString "abcdefghijkl", Title := "",
          Coords := { X := 0, Y := 0 }, Size := { W := 0, H := 0 }, angle := 0,
          Color := "" } = .ok clientPostit ∧
    (CreatePostit (sampleEnv okayAnswer) ResponseWriter.fresh
        (plainRequest "abcdefghijkl" postitBodyWithBoard) emptyWorld).1.status = some 200 ∧
    (CreatePostit (sampleEnv okayAnswer) ResponseWriter.fresh
        (plainRequest "abcdefghijkl" postitBodyWithBoard) emptyWorld).1.body =
      [.bytes (.ok clientPostit.MarshalJSON)] ∧
    (CreatePostit (sampleEnv okayAnswer) ResponseWriter.fresh
        (plainRequest "abcdefghijkl" postitBodyWithBoard) emptyWorld).2.db.postits =
      [[("_id", .val (.oid clientPostit.Id)), ("board_id", .val (.oid clientPostit.BoardId)),
        ("title", .val (.text "x")), ("coords", .doc [("x", .int 0), ("y", .int 0)]),
        ("size", .doc [("w", .int 0), ("h", .int 0)]), ("color", .val (.text ""))]] ∧
    clientPostit.BoardId ≠ ObjectId.ofString "abcdefghijkl" :=
  ⟨rfl, by decide, rfl, by decide, by decide⟩

/-- The encoder accepts a postit only when its `board_id` is 12 bytes long. -/
theorem Postit_toBSON_board_len (p : Postit) (d : Doc) (h : p.toBSON = .ok d) :
    p.BoardId.bytes.length = 12 := by
  unfold Postit.toBSON bsonObjectId at h
  split at h
  · cases h
  · split at h
    · cases h
    · rename_i bid hbid
      split at hbid
      · cases hbid
      · rename_i hlen
        exact Decidable.of_not_not hlen

/-- What CreatePostit does when the body parses, has no member named `board_id` (in any
letter case) and the insert succeeds: the path id is 12 bytes long (no id this program
issues is, they are 24 hexadecimal digits), the status is 200 and the postit returned and
stored has for `board_id` the raw bytes of the path id. -/
theorem CreatePostit_path_board (env : Env) (r : Request) (s : World) (postit : Postit)
    (postits : List Doc)
    (hparse : jsonUnmarshal Postit.setField "main.Postit" r.body
        { Id := env.newObjectId, BoardId := ObjectId.mk r.pathId, Title := "",
          Coords := { X := 0, Y := 0 }, Size := { W := 0, H := 0 }, angle := 0,
          Color := "" } = .ok postit)
    (hinsert : Collection.Insert env.storeFault s.db.postits postit.toBSON = .ok postits)
    (hnoboard : ∀ members, r.body = .ok (.obj members) →
        ∀ m ∈ members, equalFold "board_id" m.1 = false) :
    postit.BoardId = ObjectId.mk r.pathId ∧
    r.pathId.length = 12 ∧
    (CreatePostit env ResponseWriter.fresh r s).1.status = some 200 ∧
    (CreatePostit env ResponseWriter.fresh r s).1.body = [.bytes (.ok postit.MarshalJSON)] ∧
    (∃ d, (CreatePostit env ResponseWriter.fresh r s).2.db.postits = s.db.postits ++ [d] ∧
      d.lookup "board_id" = some (.val (.oid (ObjectId.mk r.pathId)))) := by
  have hbid : postit.BoardId = ObjectId.mk r.pathId :=
    jsonUnmarshal_preserves Postit.setField Postit.BoardId
      (fun k => equalFold "board_id" k = false)
      (fun k v a a1 hk h => Postit_setField_keeps_BoardId k v a a1 hk h) "main.Postit" r.body
      _ postit hnoboard hparse
  obtain ⟨d, hd, rfl⟩ := Collection_Insert_ok _ _ _ _ hinsert
  have hdoc := Postit_toBSON_ok postit d hd
  have hlen := Postit_toBSON_board_len postit d hd
  rw [hbid] at hlen
  refine ⟨hbid, hlen, ?_, ?_, d, ?_, ?_⟩
  · simp [CreatePostit, hparse, hinsert, json_fresh_status]
  · simp [CreatePostit, hparse, hinsert, json_fresh_body]
  · simp [CreatePostit, hparse, hinsert]
  · rw [hdoc, ← hbid]
    rfl

/-- The body of the scenario under the 12-byte path id `abcdefghijkl`. -/
theorem CreatePostit_path_board_witness :
    scenarioPostit.BoardId = ObjectId.ofString "abcdefghijkl" ∧
    (plainRequest "abcdefghijkl" postitBody).pathId.length = 12 ∧
    (CreatePostit (sampleEnv okayAnswer) ResponseWriter.fresh
        (plainRequest "abcdefghijkl" postitBody) emptyWorld).1.status = some 200 ∧
    (CreatePostit (sampleEnv okayAnswer) ResponseWriter.fresh
        (plainRequest "abcdefghijkl" postitBody) emptyWorld).1.body =
      [.bytes (.ok scenarioPostit.MarshalJSON)] ∧
    (∃ d, (CreatePostit (sampleEnv okayAnswer) ResponseWriter.fresh
        (plainRequest "abcdefghijkl" postitBody) emptyWorld).2.db.postits =
          emptyWorld.db.postits ++ [d] ∧
      d.lookup "board_id" = some (.val (.oid (ObjectId.ofString "abcdefghijkl")))) :=
  CreatePostit_path_board (sampleEnv okayAnswer) (plainRequest "abcdefghijkl" postitBody)
    emptyWorld scenarioPostit
    [[("_id", .val (.oid scenarioPostit.Id)), ("board_id", .val (.oid scenarioPostit.BoardId)),
      ("title", .val (.text "x")), ("coords", .doc [("x", .int 1), ("y", .int 2)]),
      ("size", .doc [("w", .int 3), ("h", .int 4)]), ("color", .val (.text "red"))]] rfl rfl
    (by
      intro members hm m hmem
      have hms : members = [("title", .str "x"),
          ("coords", .obj [("x", .num 1), ("y", .num 2)]),
          ("size", .obj [("w", .num 3), ("h", .num 4)]), ("color", .str "red")] := by
        simp only [plainRequest, postitBody, Except.ok.injEq, JSON.obj.injEq] at hm
        exact hm.symm
      subst hms
      simp only [List.mem_cons, List.mem_singleton, List.not_mem_nil, or_false] at hmem
      rcases hmem with h | h | h | h <;> subst h <;> decide)

/-- C4. After `POST /api/boards` returned the board with `_id` `0102030405060708090a0b0c`,
`POST /api/boards/0102030405060708090a0b0c/postits` with the body of the scenario: the body
parses, the `board_id` taken from the path is the 24 characters of the path id (not the 12
bytes they spell), the encoder refuses it, the response status is 500 and nothing is
stored.  Under the 12-byte path id `abcdefghijkl`, where the insert succeeds, the
`board_id` of the response is `6162636465666768696a6b6c`, not the path id. -/
theorem CreatePostit_issued_id_500 :
    jsonUnmarshal Postit.setField "main.Postit" postitBody
        { Id := (sampleEnv okayAnswer).newObjectId,
          BoardId := ObjectId.mk (plainRequest "0102030405060708090a0b0c" postitBody).pathId,
          Title := "", Coords := { X := 0, Y := 0 }, Size := { W := 0, H := 0 }, angle := 0,
          Color := "" } = .ok issuedPathPostit ∧
    issuedPathPostit.BoardId.bytes.length = 24 ∧
    issuedPathPostit.toBSON = .error "ObjectIDs must be exactly 12 bytes long (got 24)" ∧
    (CreatePostit (sampleEnv okayAnswer) ResponseWriter.fresh
        (plainRequest "0102030405060708090a0b0c" postitBody) worldWithBoard).1.status =
      some 500 ∧
    (CreatePostit (sampleEnv okayAnswer) ResponseWriter.fresh
        (plainRequest "0102030405060708090a0b0c" postitBody) worldWithBoard).2.db.postits =
      [] ∧
    (CreatePostit (sampleEnv okayAnswer) ResponseWriter.fresh
        (plainRequest "abcdefghijkl" postitBody) emptyWorld).1.body =
      [.bytes (.ok (.obj [("_id", .str "0102030405060708090a0b0c"),
        ("board_id", .str "6162636465666768696a6b6c"), ("title", .str "x"),
        ("coords", .obj [("x", .num 1), ("y", .num 2)]),
        ("size", .obj [("w", .num 3), ("h", .num 4)]), ("color", .str "red")]))] :=
  ⟨rfl, by decide, rfl, by decide, by decide, rfl⟩

/-! ## C5, C6: reading back what was created -/

/-- C5. After a successful `POST /api/boards/abcdefghijkl/postits` on the empty database the
store holds one postit whose `board_id` is the object id made of the bytes of the path id;
`GET /api/boards/abcdefghijkl/postits` then answers 200 with the body `null`: the postit
created under that path id is not listed. -/
theorem ListPostits_misses_created :
    (CreatePostit (sampleEnv okayAnswer) ResponseWriter.fresh
        (plainRequest "abcdefghijkl" postitBody) emptyWorld).1.status = some 200 ∧
    worldWithPostit.db.postits =
      [[("_id", .val (.oid scenarioPostit.Id)),
        ("board_id", .val (.oid (ObjectId.ofString "abcdefghijkl"))),
        ("title", .val (.text "x")), ("coords", .doc [("x", .int 1), ("y", .int 2)]),
        ("size", .doc [("w", .int 3), ("h", .int 4)]), ("color", .val (.text "red"))]] ∧
    (ListPostits (sampleEnv okayAnswer) ResponseWriter.fresh
        (plainRequest "abcdefghijkl" emptyBody) worldWithPostit).1.status = some 200 ∧
    (ListPostits (sampleEnv okayAnswer) ResponseWriter.fresh
        (plainRequest "abcdefghijkl" emptyBody) worldWithPostit).1.body =
      [.bytes (.ok .null)] ∧
    (ListPostits (sampleEnv okayAnswer) ResponseWriter.fresh
        (plainRequest "6162636465666768696a6b6c" emptyBody) worldWithPostit).1.body =
      [.bytes (.ok .null)] :=
  ⟨by decide, by decide, by decide, rfl, rfl⟩

/-- C6. After a successful `POST /api/boards` on the empty database, which returns the board
with `_id` `0102030405060708090a0b0c`, `GET /api/boards/0102030405060708090a0b0c` answers
404, although the store holds that board. -/
theorem ShowBoard_misses_created :
    (CreateBoard (sampleEnv okayAnswer) ResponseWriter.fresh (plainRequest "" boardBodyTitle)
        emptyWorld).1.status = some 200 ∧
    (CreateBoard (sampleEnv okayAnswer) ResponseWriter.fresh (plainRequest "" boardBodyTitle)
        emptyWorld).1.body =
      [.bytes (.ok (.obj [("_id", .str "0102030405060708090a0b0c"), ("title", .str "t")]))] ∧
    worldWithBoard.db.boards =
      [[("_id", .val (.oid titledBoard.Id)), ("title", .val (.text "t"))]] ∧
    (ShowBoard (sampleEnv okayAnswer) ResponseWriter.fresh
        (plainRequest "0102030405060708090a0b0c" emptyBody) worldWithBoard).1.status =
      some 404 :=
  ⟨by decide, rfl, by decide, by decide⟩

/-- No document written by this program matches a query for a string under a key that
holds an object id. -/
theorem matchesQuery_str_oid (key : String) (b : List Byte) (d : Doc) (id : ObjectId)
    (h : d.lookup key = some (.val (.oid id))) :
    Doc.matchesQuery [(key, .val (.str b))] d = false := by
  simp [Doc.matchesQuery, h]

/-- The invariant `PostitsWritten` holds of the empty database and CreatePostit keeps it,
whatever the request and whatever the outcome. -/
theorem CreatePostit_keeps_written (env : Env) (r : Request) (s : World)
    (hs : PostitsWritten s) : PostitsWritten (CreatePostit env ResponseWriter.fresh r s).2 := by
  unfold CreatePostit
  dsimp only
  split
  · exact hs
  · rename_i postit hparse
    split
    · exact hs
    · rename_i postits hinsert
      obtain ⟨d, hd, rfl⟩ := Collection_Insert_ok _ _ _ _ hinsert
      have hdoc := Postit_toBSON_ok postit d hd
      intro x hx
      simp only [List.mem_append, List.mem_singleton] at hx
      rcases hx with hx | hx
      · exact hs x hx
      · exact ⟨postit.BoardId, by rw [hx, hdoc]; rfl⟩

/-- While the `postits` collection holds only what this program writes and the store
answers, ListPostits answers 200 with the body `null` for every path id: it lists no
postit at all. -/
theorem ListPostits_lists_nothing (env : Env) (r : Request) (s : World)
    (hs : PostitsWritten s) (hstore : env.storeFault = none) :
    (ListPostits env ResponseWriter.fresh r s).1.status = some 200 ∧
    (ListPostits env ResponseWriter.fresh r s).1.body = [.bytes (.ok .null)] := by
  have hnone : s.db.postits.filter
      (Doc.matchesQuery [("board_id", .val (.str r.pathId))]) = [] := by
    rw [List.filter_eq_nil_iff]
    intro d hd
    obtain ⟨id, hid⟩ := hs d hd
    simp [matchesQuery_str_oid "board_id" r.pathId d id hid]
  simp [ListPostits, Collection.FindAll, hstore, hnone, marshalSlice, json_fresh_status,
    json_fresh_body]

/-- CreateBoard keeps the invariant `BoardsWritten`. -/
theorem CreateBoard_keeps_written (env : Env) (r : Request) (s : World)
    (hs : BoardsWritten s) : BoardsWritten (CreateBoard env ResponseWriter.fresh r s).2 := by
  unfold CreateBoard
  dsimp only
  split
  · exact hs
  · rename_i board hparse
    split
    · exact hs
    · rename_i boards hinsert
      obtain ⟨d, hd, rfl⟩ := Collection_Insert_ok _ _ _ _ hinsert
      have hdoc := Board_toBSON_ok board d hd
      intro x hx
      simp only [List.mem_append, List.mem_singleton] at hx
      rcases hx with hx | hx
      · exact hs x hx
      · exact ⟨board.Id, by rw [hx, hdoc]; rfl⟩

/-- While the `boards` collection holds only what this program writes, ShowBoard answers
404 for every path id, inserted or not. -/
theorem ShowBoard_always_404 (env : Env) (r : Request) (s : World) (hs : BoardsWritten s) :
    (ShowBoard env ResponseWriter.fresh r s).1.status = some 404 := by
  have hnone : s.db.boards.find? (Doc.matchesQuery [("_id", .val (.str r.pathId))]) = none := by
    rw [List.find?_eq_none]
    intro d hd
    obtain ⟨id, hid⟩ := hs d hd
    simp [matchesQuery_str_oid "_id" r.pathId d id hid]
  unfold ShowBoard Collection.FindOne
  dsimp only
  rw [hnone]
  cases env.storeFault <;> rfl

end Koalab
